import Mathlib

set_option maxHeartbeats 1000000
set_option maxRecDepth 8192

/-!
Verification model of the UFO-sightings ETL pipeline (`src/UfoSightings.py`).

Embedding conventions:
* A raw field read by `pd.read_csv(..., dtype=str)` is a `Cell`: either a
  string, or `vnan` for a missing value (pandas reads empty cells as NaN).
* A pandas DataFrame is a list of rows; whole-column operations that can raise
  (`pd.to_datetime`, `astype(float)`) are `mapE`, which fails the whole column
  when any element fails, mirroring the exception propagating out of the stage.
* Timestamps are exact calendar tuples.  The `datetime64[ns]` range limits of
  pandas (years 1677-2262) are idealized away; every input exercised by the
  claims lies far inside that window.
* Python floats are idealized as exact rationals, except that the
  inf/nan/overflow classification of `float(str)` is modelled exactly
  (overflow to infinity at magnitudes at or above 2^1024 - 2^970).  The IEEE
  rounding of in-range finite values is not observable by any claim: in
  `math.ceil(float(L) * 1.2)` the double product differs from the exact
  rational product only at column lengths beyond 8 * 10^14 characters, which
  no realizable string attains.
-/

deriving instance DecidableEq for Except

/-- One raw CSV field: a string, or a missing value (pandas NaN). -/
inductive Cell where
  | vnan : Cell
  | vstr : String → Cell
deriving DecidableEq

/-- A parsed point in time, as produced by `pd.to_datetime` with an explicit
format; minute resolution suffices for the formats used by the source. -/
structure Stamp where
  year : Nat
  month : Nat
  day : Nat
  hour : Nat
  minute : Nat
deriving DecidableEq

/-- Gregorian leap-year rule (as used by `datetime`/pandas). -/
def isLeap (y : Nat) : Bool := (y % 4 == 0 && y % 100 != 0) || y % 400 == 0

/-- Days in a month; 0 for an invalid month index. -/
def daysInMonth (y m : Nat) : Nat :=
  if m == 1 then 31 else if m == 2 then (if isLeap y then 29 else 28)
  else if m == 3 then 31 else if m == 4 then 30 else if m == 5 then 31
  else if m == 6 then 30 else if m == 7 then 31 else if m == 8 then 31
  else if m == 9 then 30 else if m == 10 then 31 else if m == 11 then 30
  else if m == 12 then 31 else 0

/-- Add one calendar day, with month/year rollover: models
`+ timedelta(days=1)` on a naive timestamp. -/
def addOneDay (t : Stamp) : Stamp :=
  if t.day < daysInMonth t.year t.month then { t with day := t.day + 1 }
  else if t.month < 12 then { t with month := t.month + 1, day := 1 }
  else { t with year := t.year + 1, month := 1, day := 1 }

/-- Strict chronological order on stamps (lexicographic on the fields). -/
def stampLtB (a b : Stamp) : Bool :=
  if a.year != b.year then a.year < b.year
  else if a.month != b.month then a.month < b.month
  else if a.day != b.day then a.day < b.day
  else if a.hour != b.hour then a.hour < b.hour
  else a.minute < b.minute

/-- Chronological non-strict order on stamps. -/
def stampLeB (a b : Stamp) : Bool := stampLtB a b || a == b

/-- Models `str.replace("24:00", "00:00")`: every non-overlapping occurrence,
scanning left to right, as Python does. -/
def replace2400 : List Char → List Char
  | '2' :: '4' :: ':' :: '0' :: '0' :: rest =>
      '0' :: '0' :: ':' :: '0' :: '0' :: replace2400 rest
  | c :: rest => c :: replace2400 rest
  | [] => []

/-- Models `Series.str.contains("24:00")` (the pattern has no regex metacharacters,
so it is a plain substring test). -/
def contains2400 : List Char → Bool
  | '2' :: '4' :: ':' :: '0' :: '0' :: _ => true
  | _ :: rest => contains2400 rest
  | [] => false

/-- Consume leading decimal digits, returning (value, digit count, rest). -/
def digitsAux : List Char → Nat → Nat → Nat × Nat × List Char
  | c :: cs, v, n =>
      if c.isDigit then digitsAux cs (10 * v + (c.toNat - 48)) (n + 1)
      else (v, n, c :: cs)
  | [], v, n => (v, n, [])

def takeDigits (l : List Char) : Nat × Nat × List Char := digitsAux l 0 0

/-- Strict parse of format `%m/%d/%Y %H:%M` as CPython/pandas strptime does:
month and day 1-2 digits (backtracking is equivalent to a range check here),
year exactly 4 digits, hour 0-23, minute 0-59, day validated against the
month length, and the whole string must be consumed. -/
def parseTimestamp (s : String) : Option Stamp :=
  let (m, nm, r1) := takeDigits s.data
  if nm == 0 || nm > 2 || m < 1 || m > 12 then none else
  match r1 with
  | '/' :: r2 =>
    let (d, nd, r3) := takeDigits r2
    if nd == 0 || nd > 2 || d < 1 then none else
    match r3 with
    | '/' :: r4 =>
      let (y, ny, r5) := takeDigits r4
      if ny != 4 then none else
      match r5 with
      | ' ' :: r6 =>
        let (h, nh, r7) := takeDigits r6
        if nh == 0 || nh > 2 || h > 23 then none else
        match r7 with
        | ':' :: r8 =>
          let (mi, nmi, r9) := takeDigits r8
          if nmi == 0 || nmi > 2 || mi > 59 then none
          else if r9 != [] then none
          else if d ≤ daysInMonth y m then some ⟨y, m, d, h, mi⟩ else none
        | _ => none
      | _ => none
    | _ => none
  | _ => none

/-- Strict parse of format `%m/%d/%Y` (used for `date posted`); the resulting
timestamp is midnight of that day, as `pd.to_datetime` produces. -/
def parseDateOnly (s : String) : Option Stamp :=
  let (m, nm, r1) := takeDigits s.data
  if nm == 0 || nm > 2 || m < 1 || m > 12 then none else
  match r1 with
  | '/' :: r2 =>
    let (d, nd, r3) := takeDigits r2
    if nd == 0 || nd > 2 || d < 1 then none else
    match r3 with
    | '/' :: r4 =>
      let (y, ny, r5) := takeDigits r4
      if ny != 4 then none
      else if r5 != [] then none
      else if d ≤ daysInMonth y m then some ⟨y, m, d, 0, 0⟩ else none
    | _ => none
  | _ => none

/-- The per-element body of `_transform_datetime_col`: replace `24:00` by
`00:00`, parse with the fixed format, then add one day exactly when the
original string contained `24:00`.  A missing value becomes NaT (`none`);
a string that fails to parse raises, failing the whole column. -/
def transform_datetime_val : Cell → Except Unit (Option Stamp)
  | .vnan => .ok none
  | .vstr s =>
      match parseTimestamp (String.mk (replace2400 s.data)) with
      | none => .error ()
      | some t => .ok (some (if contains2400 s.data then addOneDay t else t))

/-- The per-element body of `df["date posted"] = pd.to_datetime(...)`. -/
def parse_date_posted : Cell → Except Unit (Option Stamp)
  | .vnan => .ok none
  | .vstr s =>
      match parseDateOnly s with
      | none => .error ()
      | some t => .ok (some t)

/-- The value of a Python float, up to IEEE rounding of in-range finite
values (carried exactly as a rational). -/
inductive PyFloat where
  | pnan : PyFloat
  | pinf : Bool → PyFloat
  | pfin : ℚ → PyFloat
deriving DecidableEq

/-- Whitespace stripped by `float(str)` (ASCII portion). -/
def isPySpace (c : Char) : Bool :=
  c == ' ' || c == '\t' || c == '\n' || c == '\r' || c == '\x0b' || c == '\x0c'

def lowerChars (l : List Char) : List Char := l.map Char.toLower

/-- Smallest magnitude that `float(str)` overflows to infinity
(2^1024 - 2^970, the round-to-nearest overflow threshold for doubles). -/
def pyFloatMax : ℚ := mkRat ((2 ^ 1024 - 2 ^ 970 : Nat) : Int) 1

/-- Boolean `a ≤ b` on rationals (kernel-computable order test). -/
def ratLeB (a b : ℚ) : Bool := !(Rat.blt b a)

/-- Ceiling of a non-negative rational as a natural number
(kernel-computable; agrees with `Nat.ceil`, see `ratCeil_eq_ceil`). -/
def ratCeil (q : ℚ) : Nat := (q.num.toNat + (q.den - 1)) / q.den

/-- Digit run with PEP-515 underscores: a digit, then digits with single
underscores strictly between digits.  Returns (value, digit count, rest). -/
def digitsUndGo : List Char → Nat → Nat → Nat × Nat × List Char
  | c :: cs, v, n =>
      if c.isDigit then digitsUndGo cs (10 * v + (c.toNat - 48)) (n + 1)
      else if c == '_' then
        match cs with
        | d :: ds =>
            if d.isDigit then digitsUndGo ds (10 * v + (d.toNat - 48)) (n + 1)
            else (v, n, c :: cs)
        | [] => (v, n, c :: cs)
      else (v, n, c :: cs)
  | [], v, n => (v, n, [])

def digitsUnd : List Char → Option (Nat × Nat × List Char)
  | c :: cs =>
      if c.isDigit then some (digitsUndGo cs (c.toNat - 48) 1) else none
  | [] => none

/-- Assemble the value of a parsed decimal literal and classify it exactly as
CPython does: overflow to a signed infinity, otherwise finite. -/
def mkFloat (neg : Bool) (ip fp nf : Nat) (ex : Int) : PyFloat :=
  let mant : Nat := ip * 10 ^ nf + fp
  let e : Int := ex - nf
  let mag : ℚ :=
    if 0 ≤ e then mkRat ((mant * 10 ^ e.toNat : Nat) : Int) 1
    else mkRat ((mant : Nat) : Int) (10 ^ (-e).toNat)
  if ratLeB pyFloatMax mag then .pinf neg
  else .pfin (if neg then -mag else mag)

/-- Exponent suffix and end-of-string check for a decimal literal. -/
def parseExpAndEnd (r : List Char) (neg : Bool) (ip fp nf : Nat) :
    Option PyFloat :=
  match r with
  | [] => some (mkFloat neg ip fp nf 0)
  | e :: r1 =>
      if e == 'e' || e == 'E' then
        let (esign, r2) :=
          match r1 with
          | '+' :: t => (false, t)
          | '-' :: t => (true, t)
          | t => (false, t)
        match digitsUnd r2 with
        | some (ev, _, r3) =>
            if r3 == [] then
              some (mkFloat neg ip fp nf (if esign then -(ev : Int) else ev))
            else none
        | none => none
      else none

/-- Decimal-literal part of `float(str)` after the sign:
`digits [. digits] [exp]`, `digits . [exp]`, or `. digits [exp]`. -/
def parseDecimal (l : List Char) (neg : Bool) : Option PyFloat :=
  match digitsUnd l with
  | some (iv, _, r0) =>
      match r0 with
      | '.' :: r1 =>
          match digitsUnd r1 with
          | some (fv, nf, r2) => parseExpAndEnd r2 neg iv fv nf
          | none => parseExpAndEnd r1 neg iv 0 0
      | _ => parseExpAndEnd r0 neg iv 0 0
  | none =>
      match l with
      | '.' :: r1 =>
          match digitsUnd r1 with
          | some (fv, nf, r2) => parseExpAndEnd r2 neg 0 fv nf
          | none => none
      | _ => none

/-- Python's `float(str)`: strip whitespace, optional sign, then
`inf`/`infinity`/`nan` case-insensitively or a decimal literal.
`none` models a `ValueError`. -/
def pyFloatLit (s : String) : Option PyFloat :=
  let l := ((s.data.dropWhile isPySpace).reverse.dropWhile isPySpace).reverse
  let (neg, r) :=
    match l with
    | '+' :: t => (false, t)
    | '-' :: t => (true, t)
    | t => (false, t)
  let low := lowerChars r
  if low == (r"inf").data || low == (r"infinity").data then some (.pinf neg)
  else if low == (r"nan").data then some .pnan
  else parseDecimal r neg

/-- Models `float(cell)` as applied by the pipeline: a missing value is already the
float NaN (so conversion succeeds), a string goes through `float(str)`. -/
def floatOfCell : Cell → Option PyFloat
  | .vnan => some .pnan
  | .vstr s => pyFloatLit s

/-- Models `_is_float`: true exactly when `float(col)` does not raise `ValueError`. -/
def is_float (c : Cell) : Bool := (floatOfCell c).isSome

/-- One DataFrame row, polymorphic in the five typed columns so that the
successive casts of `_clean_file` can be written at their honest types:
`datetime`, `date posted`, `duration (seconds)`, `latitude`, `longitude`.
The six free-text columns stay raw cells throughout. -/
structure RowG (α β γ δ ε : Type) where
  dt : α
  city : Cell
  state : Cell
  country : Cell
  shape : Cell
  durSec : γ
  durHM : Cell
  comments : Cell
  datePosted : β
  lat : δ
  lon : ε
deriving DecidableEq

abbrev Row := RowG Cell Cell Cell Cell Cell
abbrev Row1 := RowG (Option Stamp) Cell Cell Cell Cell
abbrev Row2 := RowG (Option Stamp) (Option Stamp) Cell Cell Cell
abbrev Row3 := RowG (Option Stamp) (Option Stamp) PyFloat Cell Cell
abbrev Row4 := RowG (Option Stamp) (Option Stamp) PyFloat PyFloat Cell
abbrev CleanRow := RowG (Option Stamp) (Option Stamp) PyFloat PyFloat PyFloat

/-- Whole-column fallible map: any failing element fails the column, as an
exception escaping `pd.to_datetime`/`astype` fails the cleaning stage. -/
def mapE (f : α → Except Unit β) : List α → Except Unit (List β)
  | [] => .ok []
  | a :: l =>
      match f a with
      | .error e => .error e
      | .ok b =>
          match mapE f l with
          | .error e => .error e
          | .ok bs => .ok (b :: bs)

/-- Cast of the `datetime` column (the in-place effect of
`_transform_datetime_col`). -/
def castDT (r : Row) : Except Unit Row1 :=
  match transform_datetime_val r.dt with
  | .error e => .error e
  | .ok t => .ok ⟨t, r.city, r.state, r.country, r.shape, r.durSec, r.durHM,
      r.comments, r.datePosted, r.lat, r.lon⟩

/-- Cast of the `date posted` column. -/
def castDP (r : Row1) : Except Unit Row2 :=
  match parse_date_posted r.datePosted with
  | .error e => .error e
  | .ok t => .ok ⟨r.dt, r.city, r.state, r.country, r.shape, r.durSec, r.durHM,
      r.comments, t, r.lat, r.lon⟩

/-- Models `astype({"duration (seconds)": float})` on one row (unreachable failure:
the row already passed `_is_float`). -/
def castDur (r : Row2) : Except Unit Row3 :=
  match floatOfCell r.durSec with
  | none => .error ()
  | some p => .ok ⟨r.dt, r.city, r.state, r.country, r.shape, p, r.durHM,
      r.comments, r.datePosted, r.lat, r.lon⟩

def castLat (r : Row3) : Except Unit Row4 :=
  match floatOfCell r.lat with
  | none => .error ()
  | some p => .ok ⟨r.dt, r.city, r.state, r.country, r.shape, r.durSec,
      r.durHM, r.comments, r.datePosted, p, r.lon⟩

def castLon (r : Row4) : Except Unit CleanRow :=
  match floatOfCell r.lon with
  | none => .error ()
  | some p => .ok ⟨r.dt, r.city, r.state, r.country, r.shape, r.durSec,
      r.durHM, r.comments, r.datePosted, r.lat, p⟩

/-- Models `_clean_file` on the row data, in source order: cast `datetime`, cast
`date posted` (both fatal on failure), then for each numeric column filter
out rows failing `_is_float` and cast the survivors. -/
def clean_file (rows : List Row) : Except Unit (List CleanRow) :=
  match mapE castDT rows with
  | .error e => .error e
  | .ok l1 =>
    match mapE castDP l1 with
    | .error e => .error e
    | .ok l2 =>
      match mapE castDur (l2.filter fun r => is_float r.durSec) with
      | .error e => .error e
      | .ok l3 =>
        match mapE castLat (l3.filter fun r => is_float r.lat) with
        | .error e => .error e
        | .ok l4 => mapE castLon (l4.filter fun r => is_float r.lon)

/-- The full per-row cast chain; `clean_file` retains exactly the rows on
which this succeeds (given that the fatal date casts succeed everywhere). -/
def rowCast (r : Row) : Except Unit CleanRow :=
  ((((castDT r).bind castDP).bind castDur).bind castLat).bind castLon

/-- A row survives the three independent numeric filters. -/
def keepRow (r : Row) : Bool :=
  is_float r.durSec && is_float r.lat && is_float r.lon

/-- Python string `<` (lexicographic on code points). -/
def charListLt : List Char → List Char → Bool
  | [], [] => false
  | [], _ :: _ => true
  | _ :: _, [] => false
  | a :: as, b :: bs =>
      if a.toNat < b.toNat then true
      else if b.toNat < a.toNat then false
      else charListLt as bs

/-- Sort key order of `sort_values(by="datetime")` on the raw string column:
strings lexicographically, missing values last (`na_position="last"`). -/
def cellLt (a b : Cell) : Bool :=
  match a, b with
  | .vstr x, .vstr y => charListLt x.data y.data
  | .vstr _, .vnan => true
  | .vnan, _ => false

/-- Insert keeping existing equal keys first (a stable sort; ties between
equal raw strings are unspecified by the source's quicksort and are not
relied upon by any claim). -/
def insertRow (r : Row) : List Row → List Row
  | [] => [r]
  | x :: xs =>
      if cellLt x.dt r.dt then x :: insertRow r xs else r :: x :: xs

/-- Models `df.sort_values(by="datetime")` on the raw text column. -/
def sortRows : List Row → List Row
  | [] => []
  | r :: rs => insertRow r (sortRows rs)

/-- Models `_transform_csv`: sort by the raw `datetime` strings, then clean. -/
def transform_csv (rows : List Row) : Except Unit (List CleanRow) :=
  clean_file (sortRows rows)

/-- Adjacent-pairs ascending check for a boolean relation. -/
def ascendingBy (f : α → α → Bool) : List α → Bool
  | [] => true
  | [_] => true
  | a :: b :: l => f a b && ascendingBy f (b :: l)

/-- Observed character lengths of the non-null values of a column
(`Series.str.len()` with NaN entries skipped by `.max()`). -/
def lensOf (col : List Cell) : List Nat :=
  col.filterMap fun v =>
    match v with
    | .vnan => none
    | .vstr s => some s.length

/-- Models `Series.max()` with NaN skipping: `none` models the NaN produced by an
empty or all-null column. -/
def maxLen : List Nat → Option Nat
  | [] => none
  | a :: l =>
      match maxLen l with
      | none => some a
      | some b => some (max a b)

/-- Models `_calc_max_length`: ceil of the max observed length times the 1.2 buffer;
`math.ceil(nan)` raises `ValueError` when the column has no observed value. -/
def calc_max_length (col : List Cell) : Except Unit Nat :=
  match maxLen (lensOf col) with
  | none => .error ()
  | some l => .ok (ratCeil (mkRat (6 * (l : Int)) 5))

/-- The six varchar widths computed by `_load_to_db`, in source order. -/
def text_col_widths (df : List CleanRow) : Except Unit (List Nat) :=
  match calc_max_length (df.map (fun r => r.city)) with
  | .error e => .error e
  | .ok cw =>
    match calc_max_length (df.map (fun r => r.state)) with
    | .error e => .error e
    | .ok sw =>
      match calc_max_length (df.map (fun r => r.country)) with
      | .error e => .error e
      | .ok ow =>
        match calc_max_length (df.map (fun r => r.shape)) with
        | .error e => .error e
        | .ok hw =>
          match calc_max_length (df.map (fun r => r.durHM)) with
          | .error e => .error e
          | .ok dw =>
            match calc_max_length (df.map (fun r => r.comments)) with
            | .error e => .error e
            | .ok mw => .ok [cw, sw, ow, hw, dw, mw]

/-- The destination table: the varchar widths its schema was created with,
and its rows. -/
structure DbTable where
  widths : List Nat
  rows : List CleanRow
deriving DecidableEq

/-- Models `_load_to_db`: compute widths, `meta.create_all` (creates the table only
if absent, `checkfirst` semantics), then `to_sql(..., if_exists="append")`
which appends without truncating. -/
def load_to_db (df : List CleanRow) (db : Option DbTable) :
    Except Unit DbTable :=
  match text_col_widths df with
  | .error e => .error e
  | .ok ws =>
    let t : DbTable := match db with
      | none => { widths := ws, rows := [] }
      | some t0 => t0
    .ok { t with rows := t.rows ++ df }

/-- Models `etl`: extract (the given rows), transform, load; any exception is caught
at the top and logged as a fatal error, leaving the destination unchanged.
The boolean records whether the run completed without a fatal error. -/
def etl (rows : List Row) (db : Option DbTable) : Option DbTable × Bool :=
  match transform_csv rows with
  | .error _ => (db, false)
  | .ok out =>
    match load_to_db out db with
    | .error _ => (db, false)
    | .ok t => (some t, true)

/-- Models `str.strip()` on a header name: drop whitespace from both ends
(the whitespace classes that occur in CSV headers). -/
def trimStr (s : String) : String :=
  String.mk (((s.data.dropWhile isPySpace).reverse.dropWhile isPySpace).reverse)

/-- Column-name effect of `df[c] = ...`: append the label if absent,
otherwise overwrite in place. -/
def assignCol (cols : List String) (c : String) : List String :=
  if c ∈ cols then cols else cols ++ [c]

/-- Models `df.drop(columns=cs)`: `KeyError` if a label is absent. -/
def dropCols (cols cs : List String) : Except Unit (List String) :=
  if cs.all fun c => cols.contains c then
    .ok (cols.filter fun c => !cs.contains c)
  else .error ()

/-- Column-name effect of `_transform_datetime_col`: the two helper columns
are created and then dropped; reading `datetime` requires it to exist. -/
def transform_datetime_cols (cols : List String) : Except Unit (List String) :=
  if (r"datetime") ∈ cols then
    let c1 := assignCol cols (r"datetime_replaced")
    let c2 := assignCol c1 (r"datetime_casted")
    let c3 := assignCol c2 (r"datetime")
    dropCols c3 [r"datetime_replaced", r"datetime_casted"]
  else .error ()

/-- Column-name effect of `_clean_file`: trim the header names, run the
datetime transform, then the remaining casts (which require their columns
and change no names). -/
def clean_file_cols (cols : List String) : Except Unit (List String) :=
  let tc := cols.map trimStr
  match transform_datetime_cols tc with
  | .error e => .error e
  | .ok c1 =>
    if (r"date posted") ∈ c1 ∧ (r"duration (seconds)") ∈ c1 ∧
        (r"latitude") ∈ c1 ∧ (r"longitude") ∈ c1 then
      .ok (assignCol c1 (r"date posted"))
    else .error ()

/-- Non-negative finite value test for amended claim C8. -/
def isNonnegRealB : PyFloat → Bool
  | .pfin q => ratLeB 0 q
  | _ => false

/-- Row constructor with fixed free-text fields, for concrete test data. -/
def mkRow (dt ds dp la lo : Cell) : Row :=
  ⟨dt, .vstr (r"c"), .vstr (r"s"), .vstr (r"co"), .vstr (r"sh"), ds,
    .vstr (r"dh"), .vstr (r"com"), dp, la, lo⟩

/-- Expected image of `mkRow` under the full cast chain. -/
def mkClean (dt : Option Stamp) (ds : PyFloat) (dp : Option Stamp)
    (la lo : PyFloat) : CleanRow :=
  ⟨dt, .vstr (r"c"), .vstr (r"s"), .vstr (r"co"), .vstr (r"sh"), ds,
    .vstr (r"dh"), .vstr (r"com"), dp, la, lo⟩

/-- Three-row dataset whose raw lexicographic order disagrees with
chronological order (the claim C2 example). -/
def c2rows : List Row :=
  [mkRow (.vstr (r"01/01/2021 05:00")) (.vstr (r"1")) (.vstr (r"01/02/2021"))
      (.vstr (r"2")) (.vstr (r"3")),
   mkRow (.vstr (r"06/01/2020 12:00")) (.vstr (r"4")) (.vstr (r"06/02/2020"))
      (.vstr (r"5")) (.vstr (r"6")),
   mkRow (.vstr (r"01/01/2021 04:00")) (.vstr (r"7")) (.vstr (r"01/02/2021"))
      (.vstr (r"8")) (.vstr (r"9"))]

/-- Ascending (adjacent pairs) in the raw-string sort-key order used by
`sort_values(by="datetime")`. -/
def ascRows (l : List Row) : Bool := ascendingBy (fun a b => !cellLt b.dt a.dt) l

/-- Expected cleaned output of `transform_csv c2rows`. -/
def c2out : List CleanRow :=
  [mkClean (some ⟨2021, 1, 1, 4, 0⟩) (.pfin 7) (some ⟨2021, 1, 2, 0, 0⟩)
      (.pfin 8) (.pfin 9),
   mkClean (some ⟨2021, 1, 1, 5, 0⟩) (.pfin 1) (some ⟨2021, 1, 2, 0, 0⟩)
      (.pfin 2) (.pfin 3),
   mkClean (some ⟨2020, 6, 1, 12, 0⟩) (.pfin 4) (some ⟨2020, 6, 2, 0, 0⟩)
      (.pfin 5) (.pfin 6)]

/-- One row whose `date posted` has an invalid month and day. -/
def c3rows : List Row :=
  [mkRow (.vstr (r"01/15/2020 10:00")) (.vstr (r"1")) (.vstr (r"13/40/2020"))
      (.vstr (r"2")) (.vstr (r"3"))]

/-- Row A: invalid latitude; row B: invalid duration; row C: fully valid. -/
def c4rows : List Row :=
  [mkRow (.vstr (r"01/10/2020 08:00")) (.vstr (r"30")) (.vstr (r"01/11/2020"))
      (.vstr (r"abc")) (.vstr (r"1")),
   mkRow (.vstr (r"01/11/2020 09:00")) (.vstr (r"xyz")) (.vstr (r"01/12/2020"))
      (.vstr (r"2")) (.vstr (r"3")),
   mkRow (.vstr (r"01/12/2020 10:00")) (.vstr (r"7.5")) (.vstr (r"01/13/2020"))
      (.vstr (r"4")) (.vstr (r"5"))]

/-- Only row C of `c4rows` survives, fully cast. -/
def c4out : List CleanRow :=
  [mkClean (some ⟨2020, 1, 12, 10, 0⟩) (.pfin (mkRat 15 2))
      (some ⟨2020, 1, 13, 0, 0⟩) (.pfin 4) (.pfin 5)]

/-- A row with a negative `duration (seconds)`. -/
def c8row : Row :=
  mkRow (.vstr (r"01/15/2020 10:30")) (.vstr (r"-5")) (.vstr (r"01/02/2020"))
    (.vstr (r"10")) (.vstr (r"20"))

/-- The cleaning stage retains `c8row` with duration -5. -/
def c8clean : CleanRow :=
  mkClean (some ⟨2020, 1, 15, 10, 30⟩) (.pfin (-5)) (some ⟨2020, 1, 2, 0, 0⟩)
    (.pfin 10) (.pfin 20)

/-- A row whose numeric fields are missing, "nan" and "-inf". -/
def c9row : Row :=
  mkRow (.vstr (r"01/15/2020 10:30")) .vnan (.vstr (r"01/02/2020"))
    (.vstr (r"nan")) (.vstr (r"-inf"))

/-- Row `c9row` is retained with non-finite numeric values. -/
def c9clean : CleanRow :=
  mkClean (some ⟨2020, 1, 15, 10, 30⟩) .pnan (some ⟨2020, 1, 2, 0, 0⟩)
    .pnan (.pinf true)

/-- A header row with stray whitespace around some names. -/
def c10cols : List String :=
  [r" datetime", r"city", r"state", r"country", r"shape",
   r"duration (seconds) ", r"duration (hours/min)", r"comments",
   r"date posted", r"latitude ", r"longitude"]

/-- A cleaned single-row dataset for exercising the loader. -/
def c7df : List CleanRow :=
  [mkClean (some ⟨2020, 1, 15, 10, 0⟩) (.pfin 1) (some ⟨2020, 1, 2, 0, 0⟩)
      (.pfin 2) (.pfin 3)]

/-- A one-row dataset for exercising text-field preservation. -/
def c10rows : List Row :=
  [mkRow (.vstr (r"02/02/2020 02:02")) (.vstr (r"1")) (.vstr (r"02/03/2020"))
      (.vstr (r"2")) (.vstr (r"3"))]

/-- The cleaned image of `c10rows`. -/
def c10out : List CleanRow :=
  [mkClean (some ⟨2020, 2, 2, 2, 2⟩) (.pfin 1) (some ⟨2020, 2, 3, 0, 0⟩)
      (.pfin 2) (.pfin 3)]

theorem mapE_ok_forall2 {α β : Type} {f : α → Except Unit β} :
    ∀ {l : List α} {out : List β}, mapE f l = .ok out →
      List.Forall₂ (fun a b => f a = .ok b) l out := by
  intro l
  induction l with
  | nil =>
      intro out h
      simp [mapE] at h
      subst h
      exact List.Forall₂.nil
  | cons a t ih =>
      intro out h
      unfold mapE at h
      cases ha : f a with
      | error e => rw [ha] at h; cases h
      | ok b =>
          rw [ha] at h
          cases ht : mapE f t with
          | error e => rw [ht] at h; cases h
          | ok bs =>
              rw [ht] at h
              cases h
              exact List.Forall₂.cons ha (ih ht)

theorem mapE_error_of_mem {α β : Type} {f : α → Except Unit β} {a : α} :
    ∀ {l : List α}, a ∈ l → f a = .error () → mapE f l = .error () := by
  intro l
  induction l with
  | nil => intro h; cases h
  | cons x t ih =>
      intro hmem hfa
      unfold mapE
      rcases List.mem_cons.mp hmem with heq | htail
      · subst heq; rw [hfa]
      · cases hx : f x with
        | error e => cases e; rfl
        | ok b => rw [ih htail hfa]

theorem bindE_ok {α β : Type} {x : Except Unit α} {g : α → Except Unit β}
    {c : β} (h : x.bind g = .ok c) : ∃ b, x = .ok b ∧ g b = .ok c := by
  cases x with
  | error e => simp [Except.bind] at h
  | ok b => exact ⟨b, rfl, h⟩

theorem forall2_bind {α β γ : Type} {f : α → Except Unit β}
    {g : β → Except Unit γ} :
    ∀ {l : List α} {m : List β} {n : List γ},
      List.Forall₂ (fun a b => f a = .ok b) l m →
      List.Forall₂ (fun b c => g b = .ok c) m n →
      List.Forall₂ (fun a c => (f a).bind g = .ok c) l n := by
  intro l m n h1
  induction h1 generalizing n with
  | nil =>
      intro h2
      cases h2
      exact List.Forall₂.nil
  | cons hab htail ih =>
      intro h2
      cases h2 with
      | cons hbc h2tail =>
          exact List.Forall₂.cons (by rw [hab]; exact hbc) (ih h2tail)

theorem forall2_filter {α β : Type} {R : α → β → Prop} {p : α → Bool}
    {q : β → Bool} (hpq : ∀ a b, R a b → q b = p a) :
    ∀ {l : List α} {m : List β}, List.Forall₂ R l m →
      List.Forall₂ R (l.filter p) (m.filter q) := by
  intro l m h
  induction h with
  | nil => exact List.Forall₂.nil
  | cons hab htail ih =>
      rename_i a b l' m'
      rw [List.filter_cons, List.filter_cons, hpq a b hab]
      cases hp : p a with
      | true => simp only [if_true]; exact List.Forall₂.cons hab ih
      | false => simp only [Bool.false_eq_true, if_false]; exact ih

theorem forall2_mem_left {α β : Type} {R : α → β → Prop} {a : α} :
    ∀ {l : List α} {m : List β}, List.Forall₂ R l m → a ∈ l →
      ∃ b, b ∈ m ∧ R a b := by
  intro l m h
  induction h with
  | nil => intro h; cases h
  | cons hab htail ih =>
      intro hmem
      rcases List.mem_cons.mp hmem with heq | htl
      · subst heq
        exact ⟨_, List.mem_cons_self _ _, hab⟩
      · rcases ih htl with ⟨b, hbm, hr⟩
        exact ⟨b, List.mem_cons_of_mem _ hbm, hr⟩

theorem forall2_mem_right {α β : Type} {R : α → β → Prop} {b : β} :
    ∀ {l : List α} {m : List β}, List.Forall₂ R l m → b ∈ m →
      ∃ a, a ∈ l ∧ R a b := by
  intro l m h
  induction h with
  | nil => intro h; cases h
  | cons hab htail ih =>
      intro hmem
      rcases List.mem_cons.mp hmem with heq | htl
      · subst heq
        exact ⟨_, List.mem_cons_self _ _, hab⟩
      · rcases ih htl with ⟨a, ham, hr⟩
        exact ⟨a, List.mem_cons_of_mem _ ham, hr⟩

theorem castDT_ok {r : Row} {a : Row1} (h : castDT r = .ok a) :
    transform_datetime_val r.dt = .ok a.dt ∧ a.city = r.city ∧
    a.state = r.state ∧ a.country = r.country ∧ a.shape = r.shape ∧
    a.durSec = r.durSec ∧ a.durHM = r.durHM ∧ a.comments = r.comments ∧
    a.datePosted = r.datePosted ∧ a.lat = r.lat ∧ a.lon = r.lon := by
  unfold castDT at h
  cases hdt : transform_datetime_val r.dt with
  | error e => rw [hdt] at h; cases h
  | ok t =>
      rw [hdt] at h
      cases h
      exact ⟨rfl, rfl, rfl, rfl, rfl, rfl, rfl, rfl, rfl, rfl, rfl⟩

theorem castDP_ok {a : Row1} {b : Row2} (h : castDP a = .ok b) :
    parse_date_posted a.datePosted = .ok b.datePosted ∧ b.dt = a.dt ∧
    b.city = a.city ∧ b.state = a.state ∧ b.country = a.country ∧
    b.shape = a.shape ∧ b.durSec = a.durSec ∧ b.durHM = a.durHM ∧
    b.comments = a.comments ∧ b.lat = a.lat ∧ b.lon = a.lon := by
  unfold castDP at h
  cases hdp : parse_date_posted a.datePosted with
  | error e => rw [hdp] at h; cases h
  | ok t =>
      rw [hdp] at h
      cases h
      exact ⟨rfl, rfl, rfl, rfl, rfl, rfl, rfl, rfl, rfl, rfl, rfl⟩

theorem castDur_ok {a : Row2} {b : Row3} (h : castDur a = .ok b) :
    floatOfCell a.durSec = some b.durSec ∧ b.dt = a.dt ∧ b.city = a.city ∧
    b.state = a.state ∧ b.country = a.country ∧ b.shape = a.shape ∧
    b.durHM = a.durHM ∧ b.comments = a.comments ∧
    b.datePosted = a.datePosted ∧ b.lat = a.lat ∧ b.lon = a.lon := by
  unfold castDur at h
  cases hds : floatOfCell a.durSec with
  | none => rw [hds] at h; cases h
  | some p =>
      rw [hds] at h
      cases h
      exact ⟨rfl, rfl, rfl, rfl, rfl, rfl, rfl, rfl, rfl, rfl, rfl⟩

theorem castLat_ok {a : Row3} {b : Row4} (h : castLat a = .ok b) :
    floatOfCell a.lat = some b.lat ∧ b.dt = a.dt ∧ b.city = a.city ∧
    b.state = a.state ∧ b.country = a.country ∧ b.shape = a.shape ∧
    b.durSec = a.durSec ∧ b.durHM = a.durHM ∧ b.comments = a.comments ∧
    b.datePosted = a.datePosted ∧ b.lon = a.lon := by
  unfold castLat at h
  cases hla : floatOfCell a.lat with
  | none => rw [hla] at h; cases h
  | some p =>
      rw [hla] at h
      cases h
      exact ⟨rfl, rfl, rfl, rfl, rfl, rfl, rfl, rfl, rfl, rfl, rfl⟩

theorem castLon_ok {a : Row4} {b : CleanRow} (h : castLon a = .ok b) :
    floatOfCell a.lon = some b.lon ∧ b.dt = a.dt ∧ b.city = a.city ∧
    b.state = a.state ∧ b.country = a.country ∧ b.shape = a.shape ∧
    b.durSec = a.durSec ∧ b.durHM = a.durHM ∧ b.comments = a.comments ∧
    b.datePosted = a.datePosted ∧ b.lat = a.lat := by
  unfold castLon at h
  cases hlo : floatOfCell a.lon with
  | none => rw [hlo] at h; cases h
  | some p =>
      rw [hlo] at h
      cases h
      exact ⟨rfl, rfl, rfl, rfl, rfl, rfl, rfl, rfl, rfl, rfl, rfl⟩

theorem bridge_durSec {r : Row} {b : Row2}
    (h : (castDT r).bind castDP = .ok b) :
    is_float b.durSec = is_float r.durSec := by
  rcases bindE_ok h with ⟨a, ha, hb⟩
  rcases castDT_ok ha with ⟨-, -, -, -, -, h1, -, -, -, -, -⟩
  rcases castDP_ok hb with ⟨-, -, -, -, -, -, h2, -, -, -, -⟩
  rw [h2, h1]

theorem bridge_lat {r : Row} {c : Row3}
    (h : ((castDT r).bind castDP).bind castDur = .ok c) :
    is_float c.lat = is_float r.lat := by
  rcases bindE_ok h with ⟨b, hb, hc⟩
  rcases bindE_ok hb with ⟨a, ha, hb2⟩
  rcases castDT_ok ha with ⟨-, -, -, -, -, -, -, -, -, h1, -⟩
  rcases castDP_ok hb2 with ⟨-, -, -, -, -, -, -, -, -, h2, -⟩
  rcases castDur_ok hc with ⟨-, -, -, -, -, -, -, -, -, h3, -⟩
  rw [h3, h2, h1]

theorem bridge_lon {r : Row} {d : Row4}
    (h : (((castDT r).bind castDP).bind castDur).bind castLat = .ok d) :
    is_float d.lon = is_float r.lon := by
  rcases bindE_ok h with ⟨c, hc, hd⟩
  rcases bindE_ok hc with ⟨b, hb, hc2⟩
  rcases bindE_ok hb with ⟨a, ha, hb2⟩
  rcases castDT_ok ha with ⟨-, -, -, -, -, -, -, -, -, -, h1⟩
  rcases castDP_ok hb2 with ⟨-, -, -, -, -, -, -, -, -, -, h2⟩
  rcases castDur_ok hc2 with ⟨-, -, -, -, -, -, -, -, -, -, h3⟩
  rcases castLat_ok hd with ⟨-, -, -, -, -, -, -, -, -, -, h4⟩
  rw [h4, h3, h2, h1]

theorem triple_filter (l : List Row) :
    ((l.filter fun r => is_float r.durSec).filter
        fun r => is_float r.lat).filter (fun r => is_float r.lon) =
      l.filter keepRow := by
  induction l with
  | nil => rfl
  | cons a t ih =>
      rw [List.filter_cons]
      cases h1 : is_float a.durSec with
      | false =>
          have hk : keepRow a = false := by simp [keepRow, h1]
          simp only [Bool.false_eq_true, if_false]
          rw [ih, List.filter_cons, hk]
          simp
      | true =>
          simp only [if_true]
          rw [List.filter_cons]
          cases h2 : is_float a.lat with
          | false =>
              have hk : keepRow a = false := by simp [keepRow, h1, h2]
              simp only [Bool.false_eq_true, if_false]
              rw [ih, List.filter_cons, hk]
              simp
          | true =>
              simp only [if_true]
              rw [List.filter_cons]
              cases h3 : is_float a.lon with
              | false =>
                  have hk : keepRow a = false := by simp [keepRow, h1, h2, h3]
                  simp only [Bool.false_eq_true, if_false]
                  rw [ih, List.filter_cons, hk]
                  simp
              | true =>
                  have hk : keepRow a = true := by simp [keepRow, h1, h2, h3]
                  simp only [if_true]
                  rw [ih, List.filter_cons, hk]
                  simp

theorem clean_file_spec {rows : List Row} {out : List CleanRow}
    (h : clean_file rows = .ok out) :
    List.Forall₂ (fun r c => rowCast r = .ok c) (rows.filter keepRow) out := by
  unfold clean_file at h
  split at h
  · cases h
  rename_i l1 e1
  split at h
  · cases h
  rename_i l2 e2
  split at h
  · cases h
  rename_i l3 e3
  split at h
  · cases h
  rename_i l4 e4
  have F2 := forall2_bind (mapE_ok_forall2 e1) (mapE_ok_forall2 e2)
  have F2f := forall2_filter (fun a b hab => bridge_durSec hab) F2
  have F3 := forall2_bind F2f (mapE_ok_forall2 e3)
  have F3f := forall2_filter (fun a b hab => bridge_lat hab) F3
  have F4 := forall2_bind F3f (mapE_ok_forall2 e4)
  have F4f := forall2_filter (fun a b hab => bridge_lon hab) F4
  have F5 := forall2_bind F4f (mapE_ok_forall2 h)
  rw [triple_filter] at F5
  exact F5

theorem clean_file_error_dt {rows : List Row} {r : Row} (hmem : r ∈ rows)
    (hdt : transform_datetime_val r.dt = .error ()) :
    clean_file rows = .error () := by
  have hc : castDT r = .error () := by unfold castDT; rw [hdt]
  have he := mapE_error_of_mem hmem hc
  simp only [clean_file, he]

theorem clean_file_error_dp {rows : List Row} {r : Row} (hmem : r ∈ rows)
    (hdp : parse_date_posted r.datePosted = .error ()) :
    clean_file rows = .error () := by
  cases e1 : mapE castDT rows with
  | error e => cases e; simp only [clean_file, e1]
  | ok l1 =>
      rcases forall2_mem_left (mapE_ok_forall2 e1) hmem with ⟨a, ham, ha⟩
      have hdp1 : castDP a = .error () := by
        unfold castDP
        rcases castDT_ok ha with ⟨-, -, -, -, -, -, -, -, hdpe, -, -⟩
        rw [hdpe, hdp]
      have e2 := mapE_error_of_mem ham hdp1
      simp only [clean_file, e1, e2]

theorem rowCast_ok {r : Row} {c : CleanRow} (h : rowCast r = .ok c) :
    transform_datetime_val r.dt = .ok c.dt ∧
    parse_date_posted r.datePosted = .ok c.datePosted ∧
    floatOfCell r.durSec = some c.durSec ∧
    floatOfCell r.lat = some c.lat ∧
    floatOfCell r.lon = some c.lon ∧
    c.city = r.city ∧ c.state = r.state ∧ c.country = r.country ∧
    c.shape = r.shape ∧ c.durHM = r.durHM ∧ c.comments = r.comments := by
  unfold rowCast at h
  rcases bindE_ok h with ⟨d, hd, hlon⟩
  rcases bindE_ok hd with ⟨b3, hb3, hlat⟩
  rcases bindE_ok hb3 with ⟨b2, hb2, hdur⟩
  rcases bindE_ok hb2 with ⟨b1, hb1, hdp⟩
  rcases castDT_ok hb1 with
    ⟨q1, c1, s1, o1, g1, u1, m1, k1, p1, a1, n1⟩
  rcases castDP_ok hdp with
    ⟨q2, d2, c2, s2, o2, g2, u2, m2, k2, a2, n2⟩
  rcases castDur_ok hdur with
    ⟨q3, d3, c3, s3, o3, g3, m3, k3, p3, a3, n3⟩
  rcases castLat_ok hlat with
    ⟨q4, d4, c4, s4, o4, g4, u4, m4, k4, p4, n4⟩
  rcases castLon_ok hlon with
    ⟨q5, d5, c5, s5, o5, g5, u5, m5, k5, p5, a5⟩
  refine ⟨?_, ?_, ?_, ?_, ?_, ?_, ?_, ?_, ?_, ?_, ?_⟩
  · rw [d5, d4, d3, d2]; exact q1
  · rw [p5, p4, p3]; rw [p1] at q2; exact q2
  · rw [u5, u4]; rw [u2, u1] at q3; exact q3
  · rw [a5]; rw [a3, a2, a1] at q4; exact q4
  · rw [n4, n3, n2, n1] at q5; exact q5
  · rw [c5, c4, c3, c2, c1]
  · rw [s5, s4, s3, s2, s1]
  · rw [o5, o4, o3, o2, o1]
  · rw [g5, g4, g3, g2, g1]
  · rw [m5, m4, m3, m2, m1]
  · rw [k5, k4, k3, k2, k1]

theorem replace2400_id (l : List Char) :
    contains2400 l = false → replace2400 l = l := by
  induction l using replace2400.induct with
  | case1 rest ih =>
      intro h
      simp [contains2400] at h
  | case2 c rest hns ih =>
      intro h
      rw [contains2400.eq_2 c rest hns] at h
      rw [replace2400.eq_2 c rest hns, ih h]
  | case3 => intro h; rfl

theorem charListLt_asymm : ∀ (a b : List Char),
    charListLt a b = true → charListLt b a = false := by
  intro a
  induction a with
  | nil =>
      intro b h
      cases b with
      | nil => rfl
      | cons y ys => rfl
  | cons x xs ih =>
      intro b h
      cases b with
      | nil => simp [charListLt] at h
      | cons y ys =>
          unfold charListLt at h ⊢
          by_cases h1 : x.toNat < y.toNat
          · rw [if_neg (by omega), if_pos h1]
          · rw [if_neg h1] at h
            by_cases h2 : y.toNat < x.toNat
            · rw [if_pos h2] at h; cases h
            · rw [if_neg h2] at h
              rw [if_neg h2, if_neg h1]
              exact ih ys h

theorem cellLt_asymm {a b : Cell} (h : cellLt a b = true) :
    cellLt b a = false := by
  cases a with
  | vnan => simp [cellLt] at h
  | vstr x =>
      cases b with
      | vnan => rfl
      | vstr y =>
          simp only [cellLt] at h ⊢
          exact charListLt_asymm x.data y.data h

theorem insertRow_asc (r : Row) : ∀ (l : List Row),
    ascRows l = true → ascRows (insertRow r l) = true := by
  intro l
  induction l with
  | nil => intro h; rfl
  | cons x xs ih =>
      intro h
      unfold insertRow
      by_cases hx : cellLt x.dt r.dt = true
      · rw [if_pos hx]
        cases xs with
        | nil =>
            have hrx : cellLt r.dt x.dt = false := cellLt_asymm hx
            simp [ascRows, ascendingBy, insertRow, hrx]
        | cons y ys =>
            have hxy : (!cellLt y.dt x.dt) = true ∧
                ascRows (y :: ys) = true := by
              simpa [ascRows, ascendingBy, Bool.and_eq_true] using h
            have hins := ih hxy.2
            unfold insertRow at hins ⊢
            by_cases hy : cellLt y.dt r.dt = true
            · rw [if_pos hy] at hins ⊢
              simp only [ascRows, ascendingBy, Bool.and_eq_true] at hins ⊢
              exact ⟨hxy.1, hins⟩
            · rw [if_neg hy] at hins ⊢
              have hrx : cellLt r.dt x.dt = false := cellLt_asymm hx
              simp only [ascRows, ascendingBy, Bool.and_eq_true] at hins ⊢
              exact ⟨by simp [hrx], hins⟩
      · rw [if_neg hx]
        have hb : cellLt x.dt r.dt = false := by
          revert hx; cases cellLt x.dt r.dt <;> simp
        simp only [ascRows, ascendingBy, Bool.and_eq_true]
        exact ⟨by simp [hb], h⟩

theorem sortRows_asc : ∀ (l : List Row), ascRows (sortRows l) = true := by
  intro l
  induction l with
  | nil => rfl
  | cons x xs ih => exact insertRow_asc x (sortRows xs) ih

theorem insertRow_perm (r : Row) : ∀ (l : List Row),
    (insertRow r l).Perm (r :: l) := by
  intro l
  induction l with
  | nil => exact List.Perm.refl _
  | cons x xs ih =>
      unfold insertRow
      by_cases hx : cellLt x.dt r.dt = true
      · rw [if_pos hx]
        exact (ih.cons x).trans (List.Perm.swap r x xs)
      · rw [if_neg hx]

theorem sortRows_perm : ∀ (l : List Row), (sortRows l).Perm l := by
  intro l
  induction l with
  | nil => exact List.Perm.refl _
  | cons x xs ih =>
      exact (insertRow_perm x (sortRows xs)).trans (ih.cons x)

theorem maxLen_mem : ∀ {l : List Nat} {b : Nat}, maxLen l = some b → b ∈ l := by
  intro l
  induction l with
  | nil => intro b h; cases h
  | cons a t ih =>
      intro b h
      unfold maxLen at h
      cases ht : maxLen t with
      | none =>
          rw [ht] at h
          cases h
          exact List.mem_cons_self _ _
      | some c =>
          rw [ht] at h
          cases h
          rcases Nat.le_total a c with hac | hca
          · rw [Nat.max_eq_right hac]
            exact List.mem_cons_of_mem _ (ih ht)
          · rw [Nat.max_eq_left hca]
            exact List.mem_cons_self _ _

theorem maxLen_eq : ∀ (l : List Nat) (L : Nat), L ∈ l → (∀ x ∈ l, x ≤ L) →
    maxLen l = some L := by
  intro l
  induction l with
  | nil => intro L hmem hub; cases hmem
  | cons a t ih =>
      intro L hmem hub
      unfold maxLen
      rcases List.mem_cons.mp hmem with rfl | hL
      · cases ht : maxLen t with
        | none => rfl
        | some c =>
            have hc : c ≤ L :=
              hub c (List.mem_cons_of_mem _ (maxLen_mem ht))
            show some (max L c) = some L
            have hm : max L c = L := by omega
            rw [hm]
      · have ihr := ih L hL (fun x hx => hub x (List.mem_cons_of_mem _ hx))
        rw [ihr]
        have ha : a ≤ L := hub a (List.mem_cons_self _ _)
        show some (max a L) = some L
        have hm : max a L = L := by omega
        rw [hm]

theorem lensOf_all_nan : ∀ (col : List Cell), (∀ v ∈ col, v = Cell.vnan) →
    lensOf col = [] := by
  intro col
  induction col with
  | nil => intro h; rfl
  | cons a t ih =>
      intro h
      have ha := h a (List.mem_cons_self _ _)
      subst ha
      have ht := ih (fun v hv => h v (List.mem_cons_of_mem _ hv))
      simp only [lensOf, List.filterMap_cons] at ht ⊢
      exact ht

/-- Claim C1: for a datetime string of the form MM/DD/YYYY HH:MM the
normalizer's canonical timestamp is the parse of the string with `24:00`
replaced by `00:00`, plus exactly one calendar day when the original string
contained `24:00`, and the direct parse with no day shift otherwise; in
particular `01/15/2020 24:00` yields 2020-01-16 00:00 and
`01/15/2020 23:59` yields 2020-01-15 23:59. -/
theorem c1_datetime_repair :
    (∀ s t, parseTimestamp (String.mk (replace2400 s.data)) = some t →
      transform_datetime_val (.vstr s) =
        .ok (some (if contains2400 s.data then addOneDay t else t))) ∧
    (∀ s t, contains2400 s.data = false → parseTimestamp s = some t →
      transform_datetime_val (.vstr s) = .ok (some t)) ∧
    transform_datetime_val (.vstr (r"01/15/2020 24:00")) =
      .ok (some ⟨2020, 1, 16, 0, 0⟩) ∧
    transform_datetime_val (.vstr (r"01/15/2020 23:59")) =
      .ok (some ⟨2020, 1, 15, 23, 59⟩) := by
  refine ⟨?_, ?_, by decide, by decide⟩
  · intro s t hp
    simp only [transform_datetime_val, hp]
  · intro s t hc hp
    have hp2 : parseTimestamp (String.mk (replace2400 s.data)) = some t := by
      rw [replace2400_id s.data hc]
      cases s with
      | mk data => exact hp
    simp only [transform_datetime_val, hp2, hc]
    simp

/-- Witness for C1 at a concrete year-rollover input. -/
theorem c1_datetime_repair_witness :
    transform_datetime_val (.vstr (r"12/31/1999 24:00")) =
      .ok (some ⟨2000, 1, 1, 0, 0⟩) := by
  rw [c1_datetime_repair.1 (r"12/31/1999 24:00") ⟨1999, 12, 31, 0, 0⟩
    (by decide)]
  decide

theorem ratCeil_ge {q : ℚ} (hq : 0 ≤ q) : q ≤ (ratCeil q : ℚ) := by
  have hd0 : 0 < q.den := Nat.pos_of_ne_zero q.den_nz
  have hdQ : (0 : ℚ) < (q.den : ℚ) := by exact_mod_cast hd0
  have hnum : ((q.num.toNat : ℤ)) = q.num :=
    Int.toNat_of_nonneg (Rat.num_nonneg.mpr hq)
  have hkey : q.num.toNat ≤ q.den * ratCeil q := by
    have hdm := Nat.div_add_mod (q.num.toNat + (q.den - 1)) q.den
    have hmod : (q.num.toNat + (q.den - 1)) % q.den < q.den :=
      Nat.mod_lt _ hd0
    unfold ratCeil
    omega
  have hq2 : q = (q.num.toNat : ℚ) / (q.den : ℚ) := by
    have h1 : ((q.num.toNat : ℚ)) = ((q.num : ℤ) : ℚ) := by
      exact_mod_cast hnum
    rw [h1, Rat.num_div_den]
  nth_rewrite 1 [hq2]
  rw [div_le_iff hdQ]
  calc (q.num.toNat : ℚ) ≤ ((q.den * ratCeil q : ℕ) : ℚ) := by
        exact_mod_cast hkey
    _ = (ratCeil q : ℚ) * (q.den : ℚ) := by push_cast; ring

theorem ratCeil_le {q : ℚ} (hq : 0 ≤ q) {m : ℕ} (h : q ≤ (m : ℚ)) :
    ratCeil q ≤ m := by
  have hd0 : 0 < q.den := Nat.pos_of_ne_zero q.den_nz
  have hdQ : (0 : ℚ) < (q.den : ℚ) := by exact_mod_cast hd0
  have hnum : ((q.num.toNat : ℤ)) = q.num :=
    Int.toNat_of_nonneg (Rat.num_nonneg.mpr hq)
  have hq2 : q = (q.num.toNat : ℚ) / (q.den : ℚ) := by
    have h1 : ((q.num.toNat : ℚ)) = ((q.num : ℤ) : ℚ) := by
      exact_mod_cast hnum
    rw [h1, Rat.num_div_den]
  rw [hq2, div_le_iff hdQ] at h
  have hnat : q.num.toNat ≤ m * q.den := by exact_mod_cast h
  have hnat2 : q.num.toNat ≤ q.den * m := by rw [Nat.mul_comm] at hnat; exact hnat
  unfold ratCeil
  rw [Nat.div_le_iff_le_mul_add_pred hd0]
  omega

theorem ratCeil_eq_ceil {q : ℚ} (hq : 0 ≤ q) : ratCeil q = Nat.ceil q :=
  le_antisymm (ratCeil_le hq (Nat.le_ceil q)) (Nat.ceil_le.mpr (ratCeil_ge hq))

theorem mkRat_buffer (L : Nat) :
    (mkRat (6 * (L : Int)) 5 : ℚ) = (L : ℚ) * (1.2 : ℚ) := by
  rw [Rat.mkRat_eq_div]
  push_cast
  norm_num
  ring

theorem ratCeil_buffer (L : Nat) :
    ratCeil (mkRat (6 * (L : Int)) 5) = Nat.ceil ((L : ℚ) * (1.2 : ℚ)) := by
  rw [mkRat_buffer L]
  refine ratCeil_eq_ceil ?_
  positivity

/-- Claim C5: for a text column with at least one non-null value, the width
estimator returns the ceiling of the maximum observed character length
times 1.2. -/
theorem c5_width_estimate :
    ∀ (col : List Cell) (L : Nat), L ∈ lensOf col →
      (∀ x ∈ lensOf col, x ≤ L) →
      calc_max_length col = .ok (Nat.ceil ((L : ℚ) * (1.2 : ℚ))) := by
  intro col L hmem hub
  unfold calc_max_length
  rw [maxLen_eq (lensOf col) L hmem hub]
  show Except.ok (ratCeil (mkRat (6 * (L : Int)) 5)) = _
  rw [ratCeil_buffer L]

/-- Witness for C5: observed lengths {3, 10, 7} give width 12. -/
theorem c5_width_estimate_witness :
    calc_max_length [Cell.vstr (r"abc"), Cell.vstr (r"abcdefghij"),
      Cell.vstr (r"abcdefg")] = .ok 12 := by
  rw [c5_width_estimate _ 10 (by decide) (by decide)]
  congr 1
  rw [← ratCeil_buffer 10]
  decide

/-- Claim C6: on a column with no rows or all-null values the width
estimator raises (`math.ceil(nan)` raises `ValueError`) instead of
returning a width. -/
theorem c6_width_empty_error :
    ∀ (col : List Cell), (∀ v ∈ col, v = Cell.vnan) →
      calc_max_length col = .error () := by
  intro col h
  unfold calc_max_length
  rw [lensOf_all_nan col h]
  rfl

/-- Witness for C6 at an all-null one-row column. -/
theorem c6_width_empty_error_witness :
    calc_max_length [Cell.vnan] = .error () :=
  c6_width_empty_error [Cell.vnan] (by decide)

/-- Claim C7: table creation is create-only-if-absent, and loading appends:
a second load of the same cleaned dataset succeeds without re-creating the
schema, and after two loads of an N-row dataset the table holds 2N rows. -/
theorem c7_load_append :
    ∀ (df : List CleanRow) (t1 : DbTable), load_to_db df none = .ok t1 →
      ∃ t2, load_to_db df (some t1) = .ok t2 ∧ t1.rows = df ∧
        t2.rows = df ++ df ∧ t2.rows.length = 2 * df.length ∧
        t2.widths = t1.widths := by
  intro df t1 h
  unfold load_to_db at h ⊢
  cases hw : text_col_widths df with
  | error e =>
      rw [hw] at h
      cases h
  | ok ws =>
      rw [hw] at h
      cases h
      refine ⟨⟨ws, df ++ df⟩, rfl, rfl, rfl, ?_, rfl⟩
      show (df ++ df).length = 2 * df.length
      rw [List.length_append]
      omega

/-- Witness for C7 on a one-row cleaned dataset. -/
theorem c7_load_append_witness :
    ∃ t2, load_to_db c7df (some ⟨[2, 2, 3, 3, 3, 4], c7df⟩) = .ok t2 ∧
      (DbTable.mk [2, 2, 3, 3, 3, 4] c7df).rows = c7df ∧
      t2.rows = c7df ++ c7df ∧ t2.rows.length = 2 * c7df.length ∧
      t2.widths = (DbTable.mk [2, 2, 3, 3, 3, 4] c7df).widths :=
  c7_load_append c7df ⟨[2, 2, 3, 3, 3, 4], c7df⟩ (by decide)

/-- Counterexample to claim C2 as stated: for the three rows with canonical
datetimes 2021-01-01 05:00, 2020-06-01 12:00 and 2021-01-01 04:00, the
transformed output is NOT ascending by canonical datetime — the 2020-06-01
row comes last, because the sort happens on the raw strings before the
datetime column is parsed. -/
theorem c2_counterexample :
    transform_csv c2rows = .ok c2out ∧
    c2out.map (fun c => c.dt) =
      [some ⟨2021, 1, 1, 4, 0⟩, some ⟨2021, 1, 1, 5, 0⟩,
        some ⟨2020, 6, 1, 12, 0⟩] ∧
    stampLeB ⟨2021, 1, 1, 5, 0⟩ ⟨2020, 6, 1, 12, 0⟩ = false := by
  decide

/-- Amended claim C2: rows are sorted by the raw `datetime` string
(lexicographically, missing values last) before cleaning, and the cleaned
output consists of the full casts of the rows of that sorted order that
pass the numeric filters, in that order; the order is ascending by
canonical datetime only insofar as raw string order and chronological
order agree. -/
theorem c2_raw_string_order :
    ∀ (rows : List Row) (out : List CleanRow), transform_csv rows = .ok out →
      ascRows (sortRows rows) = true ∧ (sortRows rows).Perm rows ∧
      List.Forall₂ (fun r c => rowCast r = .ok c)
        ((sortRows rows).filter keepRow) out := by
  intro rows out h
  have h2 : clean_file (sortRows rows) = .ok out := h
  exact ⟨sortRows_asc rows, sortRows_perm rows, clean_file_spec h2⟩

/-- Witness for the amended C2 on the three-row dataset. -/
theorem c2_raw_string_order_witness :
    ascRows (sortRows c2rows) = true ∧ (sortRows c2rows).Perm c2rows ∧
    List.Forall₂ (fun r c => rowCast r = .ok c)
      ((sortRows c2rows).filter keepRow) c2out :=
  c2_raw_string_order c2rows c2out (by decide)

/-- Claim C3: a row whose datetime string (after the 24:00 rewrite) or
whose date_posted string fails to parse fails the whole normalization
stage; the run aborts with a fatal error and nothing is loaded. -/
theorem c3_fatal_on_bad_dates :
    ∀ (rows : List Row) (db : Option DbTable) (r : Row), r ∈ rows →
      ((∃ s, r.dt = Cell.vstr s ∧
          parseTimestamp (String.mk (replace2400 s.data)) = none) ∨
        (∃ s, r.datePosted = Cell.vstr s ∧ parseDateOnly s = none)) →
      transform_csv rows = .error () ∧ etl rows db = (db, false) := by
  intro rows db r hmem hbad
  have hmem2 : r ∈ sortRows rows := ((sortRows_perm rows).mem_iff).mpr hmem
  have herr : clean_file (sortRows rows) = .error () := by
    rcases hbad with ⟨s, hdt, hps⟩ | ⟨s, hdp, hps⟩
    · refine clean_file_error_dt hmem2 ?_
      rw [hdt]
      simp only [transform_datetime_val, hps]
    · refine clean_file_error_dp hmem2 ?_
      rw [hdp]
      simp only [parse_date_posted, hps]
  have htr : transform_csv rows = .error () := herr
  refine ⟨htr, ?_⟩
  unfold etl
  rw [htr]

/-- Witness for C3: date_posted "13/40/2020" aborts the run. -/
theorem c3_fatal_on_bad_dates_witness :
    transform_csv c3rows = .error () ∧ etl c3rows none = (none, false) :=
  c3_fatal_on_bad_dates c3rows none
    (mkRow (.vstr (r"01/15/2020 10:00")) (.vstr (r"1"))
      (.vstr (r"13/40/2020")) (.vstr (r"2")) (.vstr (r"3")))
    (by decide)
    (Or.inr ⟨r"13/40/2020", rfl, by decide⟩)

/-- Claim C4: the three numeric columns are filtered independently; a row
is retained exactly when its duration (seconds), latitude and longitude all
pass the float check, retained rows are unaffected otherwise, and the
output lists the full casts of the retained rows in order. -/
theorem c4_numeric_row_filter :
    ∀ (rows : List Row) (out : List CleanRow), clean_file rows = .ok out →
      (∀ r, keepRow r = (is_float r.durSec && is_float r.lat &&
        is_float r.lon)) ∧
      List.Forall₂ (fun r c => rowCast r = .ok c) (rows.filter keepRow) out := by
  intro rows out h
  exact ⟨fun r => rfl, clean_file_spec h⟩

/-- Witness for C4: row A (bad latitude) and row B (bad duration) are
dropped, fully valid row C is retained. -/
theorem c4_numeric_row_filter_witness :
    List.Forall₂ (fun r c => rowCast r = .ok c) (c4rows.filter keepRow)
      c4out :=
  (c4_numeric_row_filter c4rows c4out (by decide)).2

/-- Counterexample to claim C8 as stated: a row with duration (seconds)
"-5" is retained by the cleaning stage with the negative value -5 — the
stage checks only float-parseability, not non-negativity. -/
theorem c8_counterexample :
    clean_file [c8row] = .ok [c8clean] ∧
    c8clean.durSec = PyFloat.pfin (-5) ∧
    isNonnegRealB c8clean.durSec = false := by
  decide

/-- Amended claim C8: every record retained by the cleaning stage has a
duration (seconds) value that Python float conversion accepts; the value
may be negative or non-finite, since only parseability is enforced. -/
theorem c8_duration_parseable :
    ∀ (rows : List Row) (out : List CleanRow) (c : CleanRow),
      clean_file rows = .ok out → c ∈ out →
      ∃ rw, rw ∈ rows ∧ is_float rw.durSec = true ∧ rowCast rw = .ok c := by
  intro rows out c h hc
  rcases forall2_mem_right (clean_file_spec h) hc with ⟨a, ham, hr⟩
  rcases List.mem_filter.mp ham with ⟨hmem, hk⟩
  have hds : is_float a.durSec = true := by
    have hk2 := hk
    simp only [keepRow, Bool.and_eq_true] at hk2
    exact hk2.1.1
  exact ⟨a, hmem, hds, hr⟩

/-- Witness for the amended C8 at the retained negative-duration row. -/
theorem c8_duration_parseable_witness :
    ∃ rw, rw ∈ [c8row] ∧ is_float rw.durSec = true ∧
      rowCast rw = .ok c8clean :=
  c8_duration_parseable [c8row] [c8clean] c8clean (by decide) (by decide)

/-- Claim C9: a missing numeric field (read as NaN) and strings accepted by
Python float conversion such as "nan", "inf", "-inf" pass the float check,
and such a row is retained with a non-finite numeric value rather than
dropped: concretely, a row with missing duration, latitude "nan" and
longitude "-inf" is retained with values NaN, NaN and -infinity. -/
theorem c9_nonfinite_retained :
    is_float Cell.vnan = true ∧
    (∀ s, pyFloatLit s = some PyFloat.pnan → is_float (Cell.vstr s) = true) ∧
    (∀ s b, pyFloatLit s = some (PyFloat.pinf b) →
      is_float (Cell.vstr s) = true) ∧
    clean_file [c9row] = .ok [c9clean] ∧
    c9clean.durSec = PyFloat.pnan ∧ c9clean.lat = PyFloat.pnan ∧
    c9clean.lon = PyFloat.pinf true := by
  refine ⟨rfl, ?_, ?_, by decide, by decide, by decide, by decide⟩
  · intro s hs
    simp only [is_float, floatOfCell, hs, Option.isSome]
  · intro s b hs
    simp only [is_float, floatOfCell, hs, Option.isSome]

/-- Witness for C9: "inf" passes the float-validity check. -/
theorem c9_nonfinite_retained_witness :
    is_float (Cell.vstr (r"inf")) = true :=
  c9_nonfinite_retained.2.2.1 (r"inf") false (by decide)

/-- Claim C10: the cleaning stage returns exactly the input's columns with
whitespace-trimmed names — the helper columns datetime_replaced and
datetime_casted are dropped before the stage returns — and every surviving
row keeps its six free-text fields unchanged. -/
theorem c10_columns_and_texts :
    (∀ cols : List String,
      (r"datetime") ∈ cols.map trimStr →
      (r"date posted") ∈ cols.map trimStr →
      (r"duration (seconds)") ∈ cols.map trimStr →
      (r"latitude") ∈ cols.map trimStr →
      (r"longitude") ∈ cols.map trimStr →
      (r"datetime_replaced") ∉ cols.map trimStr →
      (r"datetime_casted") ∉ cols.map trimStr →
      clean_file_cols cols = .ok (cols.map trimStr)) ∧
    (∀ (rows : List Row) (out : List CleanRow), clean_file rows = .ok out →
      List.Forall₂ (fun r c => c.city = r.city ∧ c.state = r.state ∧
        c.country = r.country ∧ c.shape = r.shape ∧ c.durHM = r.durHM ∧
        c.comments = r.comments) (rows.filter keepRow) out) := by
  constructor
  · intro cols h1 h2 h3 h4 h5 h6 h7
    have hAB : (r"datetime_casted" : String) ≠ (r"datetime_replaced" : String) := by
      decide
    have e1 : assignCol (cols.map trimStr) (r"datetime_replaced") =
        cols.map trimStr ++ [r"datetime_replaced"] := by
      unfold assignCol
      rw [if_neg h6]
    have hc2 : (r"datetime_casted") ∉
        cols.map trimStr ++ [r"datetime_replaced"] := by
      intro hmem
      rcases List.mem_append.mp hmem with hin | hin
      · exact h7 hin
      · exact hAB (List.mem_singleton.mp hin)
    have e2 : assignCol (cols.map trimStr ++ [r"datetime_replaced"])
        (r"datetime_casted") =
        (cols.map trimStr ++ [r"datetime_replaced"]) ++ [r"datetime_casted"] := by
      unfold assignCol
      rw [if_neg hc2]
    have hdtin : (r"datetime") ∈
        (cols.map trimStr ++ [r"datetime_replaced"]) ++ [r"datetime_casted"] :=
      List.mem_append.mpr (Or.inl (List.mem_append.mpr (Or.inl h1)))
    have e3 : assignCol
        ((cols.map trimStr ++ [r"datetime_replaced"]) ++ [r"datetime_casted"])
        (r"datetime") =
        (cols.map trimStr ++ [r"datetime_replaced"]) ++ [r"datetime_casted"] := by
      unfold assignCol
      rw [if_pos hdtin]
    have hfil : ((cols.map trimStr ++ [r"datetime_replaced"]) ++
        [r"datetime_casted"]).filter
        (fun c => !([r"datetime_replaced", r"datetime_casted"].contains c)) =
        cols.map trimStr := by
      rw [List.filter_append, List.filter_append]
      have hA : ([r"datetime_replaced"].filter
          (fun c => !([r"datetime_replaced", r"datetime_casted"].contains c)))
          = [] := by decide
      have hB : ([r"datetime_casted"].filter
          (fun c => !([r"datetime_replaced", r"datetime_casted"].contains c)))
          = [] := by decide
      rw [hA, hB]
      rw [List.filter_eq_self.mpr]
      · simp
      · intro x hx
        have hxa : x ≠ (r"datetime_replaced") := fun e => h6 (e ▸ hx)
        have hxb : x ≠ (r"datetime_casted") := fun e => h7 (e ▸ hx)
        simp [List.contains_cons, hxa, hxb]
    have hcond : (([r"datetime_replaced", r"datetime_casted"] :
        List String).all fun c =>
        ((cols.map trimStr ++ [r"datetime_replaced"]) ++
          [r"datetime_casted"]).contains c) = true := by
      have hAin : (r"datetime_replaced") ∈
          (cols.map trimStr ++ [r"datetime_replaced"]) ++ [r"datetime_casted"] :=
        List.mem_append.mpr (Or.inl (List.mem_append.mpr (Or.inr (by simp))))
      have hBin : (r"datetime_casted") ∈
          (cols.map trimStr ++ [r"datetime_replaced"]) ++ [r"datetime_casted"] :=
        List.mem_append.mpr (Or.inr (by simp))
      simp [List.all_cons, hAin, hBin]
    have hdrop : dropCols
        ((cols.map trimStr ++ [r"datetime_replaced"]) ++ [r"datetime_casted"])
        [r"datetime_replaced", r"datetime_casted"] = .ok (cols.map trimStr) := by
      unfold dropCols
      rw [if_pos hcond, hfil]
    have etd : transform_datetime_cols (cols.map trimStr) =
        .ok (cols.map trimStr) := by
      show (if (r"datetime") ∈ cols.map trimStr then
        dropCols (assignCol (assignCol (assignCol (cols.map trimStr)
          (r"datetime_replaced")) (r"datetime_casted")) (r"datetime"))
          [r"datetime_replaced", r"datetime_casted"]
        else .error ()) = .ok (cols.map trimStr)
      rw [if_pos h1, e1, e2, e3, hdrop]
    have hass : assignCol (cols.map trimStr) (r"date posted") =
        cols.map trimStr := by
      unfold assignCol
      rw [if_pos h2]
    show ((match transform_datetime_cols (cols.map trimStr) with
      | Except.error e => Except.error e
      | Except.ok c1 =>
        if (r"date posted") ∈ c1 ∧ (r"duration (seconds)") ∈ c1 ∧
            (r"latitude") ∈ c1 ∧ (r"longitude") ∈ c1 then
          Except.ok (assignCol c1 (r"date posted"))
        else Except.error ()) : Except Unit (List String)) =
      Except.ok (cols.map trimStr)
    rw [etd]
    show ((if (r"date posted") ∈ cols.map trimStr ∧
        (r"duration (seconds)") ∈ cols.map trimStr ∧
        (r"latitude") ∈ cols.map trimStr ∧
        (r"longitude") ∈ cols.map trimStr then
      Except.ok (assignCol (cols.map trimStr) (r"date posted"))
      else Except.error ()) : Except Unit (List String)) =
      Except.ok (cols.map trimStr)
    rw [if_pos ⟨h2, h3, h4, h5⟩, hass]
  · intro rows out h
    refine List.Forall₂.imp ?_ (clean_file_spec h)
    intro r c hr
    rcases rowCast_ok hr with ⟨-, -, -, -, -, hc, hs, ho, hg, hm, hk⟩
    exact ⟨hc, hs, ho, hg, hm, hk⟩

/-- Witness for C10 on an 11-column header with stray whitespace and a
concrete one-row dataset. -/
theorem c10_columns_and_texts_witness :
    clean_file_cols c10cols = .ok (c10cols.map trimStr) ∧
    List.Forall₂ (fun (r : Row) (c : CleanRow) => c.city = r.city ∧
      c.state = r.state ∧ c.country = r.country ∧ c.shape = r.shape ∧
      c.durHM = r.durHM ∧ c.comments = r.comments)
      (c10rows.filter keepRow) c10out :=
  ⟨c10_columns_and_texts.1 c10cols (by decide) (by decide) (by decide)
      (by decide) (by decide) (by decide) (by decide),
    c10_columns_and_texts.2 c10rows c10out (by decide)⟩
